import Mathlib

/-!
Shallow embedding of the rust-toy-tx-engine core (src/account.rs, src/engine.rs,
src/transaction.rs).  Monetary amounts (`rust_decimal::Decimal`) are modelled as
exact rationals: the code only uses addition, subtraction and comparison, which
the `Decimal` type performs exactly.  The two `HashMap`s of the engine are
modelled as association lists with the same lookup/insert (overwrite) semantics.
-/

namespace ToyTx

/-- Client identifiers (`u16` in the source). -/
abbrev ClientId := Nat

/-- Transaction identifiers (`u32` in the source). -/
abbrev TxId := Nat

/-- Model of `Account` from src/account.rs: total, held and the lock flag; `available`
is derived, never stored. -/
structure Account where
  client_id : ClientId
  total : ℚ
  held : ℚ
  is_locked : Bool
deriving DecidableEq

/-- Model of `Account::new` from src/account.rs. -/
def Account.new (client_id : ClientId) : Account :=
  { client_id := client_id, total := 0, held := 0, is_locked := false }

/-- Model of `Account::default` (src/account.rs `impl Default`): `Self::new(0)`. -/
def Account.default : Account := Account.new 0

/-- Model of `AccountError` from src/account.rs. -/
inductive AccountError where
  | AccountLocked (client : ClientId)
  | InsufficientFunds (client : ClientId)
deriving DecidableEq

/-- Model of `Account::get_available`: `total - held`. -/
def Account.get_available (a : Account) : ℚ := a.total - a.held

/-- Model of `Account::deposit`.  The `tx` argument is only used for logging in the
source; the post-state of the `&mut self` receiver is returned alongside the
`Result`. -/
def Account.deposit (a : Account) (tx : TxId) (amount : ℚ) :
    Account × Except AccountError Unit :=
  if a.is_locked then
    (a, Except.error (AccountError.AccountLocked a.client_id))
  else
    ({ a with total := a.total + amount }, Except.ok ())

/-- Model of `Account::withdraw`. -/
def Account.withdraw (a : Account) (tx : TxId) (amount : ℚ) :
    Account × Except AccountError Unit :=
  if a.is_locked then
    (a, Except.error (AccountError.AccountLocked a.client_id))
  else if a.get_available < amount then
    (a, Except.error (AccountError.InsufficientFunds a.client_id))
  else
    ({ a with total := a.total - amount }, Except.ok ())

/-- Model of `Account::dispute`: `held += amount`, always `Ok`. -/
def Account.dispute (a : Account) (amount : ℚ) :
    Account × Except AccountError Unit :=
  ({ a with held := a.held + amount }, Except.ok ())

/-- Model of `Account::resolve`: `held -= amount`, always `Ok`. -/
def Account.resolve (a : Account) (amount : ℚ) :
    Account × Except AccountError Unit :=
  ({ a with held := a.held - amount }, Except.ok ())

/-- Model of `Account::chargeback`: `held -= amount; total -= amount; is_locked = true`,
always `Ok`. -/
def Account.chargeback (a : Account) (amount : ℚ) :
    Account × Except AccountError Unit :=
  ({ a with held := a.held - amount, total := a.total - amount, is_locked := true },
   Except.ok ())

/-- Model of `TransactionType` from src/transaction.rs. -/
inductive TransactionType where
  | Deposit
  | Withdrawal
  | Dispute
  | Resolve
  | Chargeback
deriving DecidableEq

/-- Model of `Transaction` from src/transaction.rs (`amount` is optional, present only
for deposit/withdrawal). -/
structure Transaction where
  type : TransactionType
  client : ClientId
  tx : TxId
  amount : Option ℚ
deriving DecidableEq

/-- Model of `DisputeState` from src/transaction.rs. -/
inductive DisputeState where
  | None
  | Disputed
  | Resolved
  | ChargedBack
deriving DecidableEq

/-- Model of `TransactionRecord` from src/transaction.rs. -/
structure TransactionRecord where
  transaction : Transaction
  dispute_state : DisputeState
deriving DecidableEq

/-- Association-list lookup, modelling `HashMap::get`. -/
def lookupKey {α : Type} : List (Nat × α) → Nat → Option α
  | [], _ => none
  | (k, v) :: rest, k' => if k = k' then some v else lookupKey rest k'

/-- Association-list insert with overwrite, modelling `HashMap::insert` (and
the write-back of a value obtained through `entry`/`get_mut`). -/
def insertKey {α : Type} : List (Nat × α) → Nat → α → List (Nat × α)
  | [], k, v => [(k, v)]
  | (k', v') :: rest, k, v =>
      if k' = k then (k, v) :: rest else (k', v') :: insertKey rest k v

/-- Model of `Engine` from src/engine.rs: `client_id → Account` and
`tx_id → TransactionRecord`. -/
structure Engine where
  accounts : List (ClientId × Account)
  transactions : List (TxId × TransactionRecord)
deriving DecidableEq

/-- Model of `Engine::new`. -/
def Engine.new : Engine := { accounts := [], transactions := [] }

/-- Model of `Engine::handle_deposit`: `entry(client).or_default()` materializes the
account (the `Default` account, whose `client_id` field is 0) before
`account.deposit`; a `TransactionRecord` is inserted only on success. -/
def Engine.handle_deposit (e : Engine) (client : ClientId) (tx : TxId)
    (amount : ℚ) : Engine :=
  let account := (lookupKey e.accounts client).getD Account.default
  match account.deposit tx amount with
  | (account', Except.ok _) =>
      { accounts := insertKey e.accounts client account',
        transactions := insertKey e.transactions tx
          { transaction :=
              { type := TransactionType.Deposit, client := client, tx := tx,
                amount := some amount },
            dispute_state := DisputeState.None } }
  | (account', Except.error _) =>
      { e with accounts := insertKey e.accounts client account' }

/-- Model of `Engine::handle_withdrawal`: requires an existing account
(`accounts.get_mut`); a record is inserted only when `withdraw` succeeds. -/
def Engine.handle_withdrawal (e : Engine) (client : ClientId) (tx : TxId)
    (amount : ℚ) : Engine :=
  match lookupKey e.accounts client with
  | none => e
  | some account =>
      match account.withdraw tx amount with
      | (account', Except.ok _) =>
          { accounts := insertKey e.accounts client account',
            transactions := insertKey e.transactions tx
              { transaction :=
                  { type := TransactionType.Withdrawal, client := client,
                    tx := tx, amount := some amount },
                dispute_state := DisputeState.None } }
      | (account', Except.error _) =>
          { e with accounts := insertKey e.accounts client account' }

/-- Model of `Engine::handle_dispute`: looks up the record by `tx`, requires state
`None`, then looks up the account by the *incoming* `client` argument and, when
everything is present, applies `account.dispute(record.amount)` and marks the
record `Disputed`. -/
def Engine.handle_dispute (e : Engine) (client : ClientId) (tx : TxId) :
    Engine :=
  match lookupKey e.transactions tx with
  | none => e
  | some record =>
      if record.dispute_state = DisputeState.None then
        match lookupKey e.accounts client with
        | none => e
        | some account =>
            match record.transaction.amount with
            | none => e
            | some amount =>
                match account.dispute amount with
                | (account', Except.ok _) =>
                    { accounts := insertKey e.accounts client account',
                      transactions := insertKey e.transactions tx
                        { record with dispute_state := DisputeState.Disputed } }
                | (account', Except.error _) =>
                    { e with accounts := insertKey e.accounts client account' }
      else e

/-- Model of `Engine::handle_resolve`: same routing as `handle_dispute`, but requires
state `Disputed` and applies `account.resolve`, marking the record
`Resolved`. -/
def Engine.handle_resolve (e : Engine) (client : ClientId) (tx : TxId) :
    Engine :=
  match lookupKey e.transactions tx with
  | none => e
  | some record =>
      if record.dispute_state = DisputeState.Disputed then
        match lookupKey e.accounts client with
        | none => e
        | some account =>
            match record.transaction.amount with
            | none => e
            | some amount =>
                match account.resolve amount with
                | (account', Except.ok _) =>
                    { accounts := insertKey e.accounts client account',
                      transactions := insertKey e.transactions tx
                        { record with dispute_state := DisputeState.Resolved } }
                | (account', Except.error _) =>
                    { e with accounts := insertKey e.accounts client account' }
      else e

/-- Model of `Engine::handle_chargeback`: requires state `Disputed`, applies
`account.chargeback`, marking the record `ChargedBack`. -/
def Engine.handle_chargeback (e : Engine) (client : ClientId) (tx : TxId) :
    Engine :=
  match lookupKey e.transactions tx with
  | none => e
  | some record =>
      if record.dispute_state = DisputeState.Disputed then
        match lookupKey e.accounts client with
        | none => e
        | some account =>
            match record.transaction.amount with
            | none => e
            | some amount =>
                match account.chargeback amount with
                | (account', Except.ok _) =>
                    { accounts := insertKey e.accounts client account',
                      transactions := insertKey e.transactions tx
                        { record with dispute_state := DisputeState.ChargedBack } }
                | (account', Except.error _) =>
                    { e with accounts := insertKey e.accounts client account' }
      else e

/-- Model of `Engine::apply_transaction`: the router; Deposit/Withdrawal without an
`amount` are skipped. -/
def Engine.apply_transaction (e : Engine) (t : Transaction) : Engine :=
  match t.type with
  | TransactionType.Deposit =>
      match t.amount with
      | some amount => e.handle_deposit t.client t.tx amount
      | none => e
  | TransactionType.Withdrawal =>
      match t.amount with
      | some amount => e.handle_withdrawal t.client t.tx amount
      | none => e
  | TransactionType.Dispute => e.handle_dispute t.client t.tx
  | TransactionType.Resolve => e.handle_resolve t.client t.tx
  | TransactionType.Chargeback => e.handle_chargeback t.client t.tx

/-- Model of `Engine::process_transactions`: fold the stream in arrival order. -/
def Engine.process_transactions (e : Engine) (ts : List Transaction) : Engine :=
  ts.foldl Engine.apply_transaction e

end ToyTx

namespace ToyTx

/-- Lookup after overwrite-insert: the inserted key maps to the new value, all
other keys are untouched. -/
theorem lookupKey_insertKey {α : Type} (m : List (Nat × α)) (k k' : Nat)
    (v : α) :
    lookupKey (insertKey m k v) k' = if k = k' then some v else lookupKey m k' := by
  induction m with
  | nil =>
      by_cases h : k = k' <;> simp [insertKey, lookupKey, h]
  | cons hd tl ih =>
      obtain ⟨k₀, v₀⟩ := hd
      by_cases h₀ : k₀ = k
      · subst h₀
        by_cases h' : k₀ = k' <;> simp [insertKey, lookupKey, h']
      · by_cases h' : k₀ = k'
        · subst h'
          have hk : ¬ k = k₀ := fun h => h₀ h.symm
          simp [insertKey, lookupKey, h₀, hk]
        · simp [insertKey, lookupKey, h₀, h', ih]

end ToyTx

namespace ToyTx

/-- Deposit never changes the lock flag (error returns the account unchanged,
success only touches `total`). -/
theorem Account.deposit_fst_is_locked (a : Account) (tx : TxId) (amt : ℚ) :
    ((a.deposit tx amt).1).is_locked = a.is_locked := by
  by_cases h : a.is_locked <;> simp [Account.deposit, h]

/-- Withdraw never changes the lock flag. -/
theorem Account.withdraw_fst_is_locked (a : Account) (tx : TxId) (amt : ℚ) :
    ((a.withdraw tx amt).1).is_locked = a.is_locked := by
  by_cases h : a.is_locked
  · simp [Account.withdraw, h]
  · by_cases h' : a.get_available < amt <;> simp [Account.withdraw, h, h']

/-- Helper transaction constructor: deposit. -/
def mkDeposit (c : ClientId) (tx : TxId) (amt : ℚ) : Transaction :=
  { type := TransactionType.Deposit, client := c, tx := tx, amount := some amt }

/-- Helper transaction constructor: withdrawal. -/
def mkWithdrawal (c : ClientId) (tx : TxId) (amt : ℚ) : Transaction :=
  { type := TransactionType.Withdrawal, client := c, tx := tx, amount := some amt }

/-- Helper transaction constructor: dispute (carries no amount). -/
def mkDispute (c : ClientId) (tx : TxId) : Transaction :=
  { type := TransactionType.Dispute, client := c, tx := tx, amount := none }

/-- Helper transaction constructor: resolve. -/
def mkResolve (c : ClientId) (tx : TxId) : Transaction :=
  { type := TransactionType.Resolve, client := c, tx := tx, amount := none }

/-- Helper transaction constructor: chargeback. -/
def mkChargeback (c : ClientId) (tx : TxId) : Transaction :=
  { type := TransactionType.Chargeback, client := c, tx := tx, amount := none }

/-- C2: every account reachable by applying a finite transaction stream to a
fresh engine satisfies `total = available + held`, where `available` is the
derived quantity `get_available = total - held` and is never independently
stored. -/
theorem reachable_total_eq_available_add_held (ts : List Transaction)
    (c : ClientId) (a : Account)
    (h : lookupKey (Engine.new.process_transactions ts).accounts c = some a) :
    a.total = a.get_available + a.held := by
  simp only [Account.get_available]
  ring

/-- Witness for C2 at the concrete stream `[deposit 1 1 (3/2)]`. -/
theorem reachable_total_eq_available_add_held_witness :
    ({ client_id := 0, total := 3/2, held := 0, is_locked := false } : Account).total =
      ({ client_id := 0, total := 3/2, held := 0, is_locked := false } : Account).get_available +
      ({ client_id := 0, total := 3/2, held := 0, is_locked := false } : Account).held :=
  reachable_total_eq_available_add_held [mkDeposit 1 1 (3/2)] 1 _ (by
    norm_num [Engine.process_transactions, Engine.apply_transaction,
      Engine.handle_deposit, Account.deposit, Account.default, Account.new,
      Engine.new, mkDeposit, lookupKey, insertKey])

/-- C5: account-level deposit/withdraw semantics — an unlocked deposit adds
exactly `amount` to `total` (held untouched, no upper bound); withdraw fails
with `AccountLocked` when locked, with `InsufficientFunds` exactly when
`available < amount`, and otherwise subtracts exactly `amount` from `total`
(held untouched); both failures return the account unchanged. -/
theorem deposit_withdraw_semantics (a : Account) (tx : TxId) (amt : ℚ) :
    (a.is_locked = false →
      a.deposit tx amt = ({ a with total := a.total + amt }, Except.ok ())) ∧
    (a.is_locked = true →
      a.deposit tx amt =
        (a, Except.error (AccountError.AccountLocked a.client_id))) ∧
    (a.is_locked = true →
      a.withdraw tx amt =
        (a, Except.error (AccountError.AccountLocked a.client_id))) ∧
    (a.is_locked = false → a.get_available < amt →
      a.withdraw tx amt =
        (a, Except.error (AccountError.InsufficientFunds a.client_id))) ∧
    (a.is_locked = false → ¬ a.get_available < amt →
      a.withdraw tx amt = ({ a with total := a.total - amt }, Except.ok ())) := by
  refine ⟨fun h => ?_, fun h => ?_, fun h => ?_, fun h h' => ?_, fun h h' => ?_⟩
  · simp [Account.deposit, h]
  · simp [Account.deposit, h]
  · simp [Account.withdraw, h]
  · simp [Account.withdraw, h, h']
  · simp [Account.withdraw, h, h']

/-- Witness for C5: an unlocked account with 2 total deposits 5 and cannot
withdraw 7; a locked account rejects both. -/
theorem deposit_withdraw_semantics_witness :
    ({ client_id := 1, total := 2, held := 0, is_locked := false } : Account).deposit 9 5 =
      ({ client_id := 1, total := 2 + 5, held := 0, is_locked := false }, Except.ok ()) ∧
    ({ client_id := 1, total := 2, held := 0, is_locked := true } : Account).deposit 9 5 =
      ({ client_id := 1, total := 2, held := 0, is_locked := true },
        Except.error (AccountError.AccountLocked 1)) ∧
    ({ client_id := 1, total := 2, held := 0, is_locked := true } : Account).withdraw 9 5 =
      ({ client_id := 1, total := 2, held := 0, is_locked := true },
        Except.error (AccountError.AccountLocked 1)) ∧
    ({ client_id := 1, total := 2, held := 0, is_locked := false } : Account).withdraw 9 7 =
      ({ client_id := 1, total := 2, held := 0, is_locked := false },
        Except.error (AccountError.InsufficientFunds 1)) ∧
    ({ client_id := 1, total := 2, held := 0, is_locked := false } : Account).withdraw 9 1 =
      ({ client_id := 1, total := 2 - 1, held := 0, is_locked := false }, Except.ok ()) :=
  ⟨(deposit_withdraw_semantics _ 9 5).1 rfl,
   (deposit_withdraw_semantics _ 9 5).2.1 rfl,
   (deposit_withdraw_semantics _ 9 5).2.2.1 rfl,
   (deposit_withdraw_semantics _ 9 7).2.2.2.1 rfl (by norm_num [Account.get_available]),
   (deposit_withdraw_semantics _ 9 1).2.2.2.2 rfl (by norm_num [Account.get_available])⟩

/-- C6: the account-level dispute-family operations are unconditional pure
balance transforms — `dispute` adds to `held`, `resolve` subtracts from
`held`, `chargeback` subtracts from both `held` and `total` and locks; none of
them ever fails and none clamps. -/
theorem dispute_family_unconditional (a : Account) (amt : ℚ) :
    a.dispute amt = ({ a with held := a.held + amt }, Except.ok ()) ∧
    a.resolve amt = ({ a with held := a.held - amt }, Except.ok ()) ∧
    a.chargeback amt =
      ({ a with held := a.held - amt, total := a.total - amt, is_locked := true },
        Except.ok ()) :=
  ⟨rfl, rfl, rfl⟩

end ToyTx

namespace ToyTx

/-- C10: the lock does not gate initiating a new dispute — for a locked
account (looked up under the same incoming-`client` routing the engine uses)
and a recorded transaction with `dispute_state = None`, a Dispute succeeds:
`held` grows by the recorded amount and the record moves to `Disputed`. -/
theorem locked_account_dispute_succeeds (e : Engine) (client : ClientId)
    (tx : TxId) (a : Account) (rec : TransactionRecord) (amt : ℚ)
    (ha : lookupKey e.accounts client = some a)
    (hl : a.is_locked = true)
    (hrec : lookupKey e.transactions tx = some rec)
    (hst : rec.dispute_state = DisputeState.None)
    (hamt : rec.transaction.amount = some amt) :
    lookupKey (e.apply_transaction (mkDispute client tx)).accounts client =
      some { a with held := a.held + amt } ∧
    lookupKey (e.apply_transaction (mkDispute client tx)).transactions tx =
      some { rec with dispute_state := DisputeState.Disputed } := by
  simp [Engine.apply_transaction, mkDispute, Engine.handle_dispute, hrec, hst,
    ha, hamt, Account.dispute, lookupKey_insertKey]

/-- Witness for C10: deposit twice to client 1, dispute and charge back tx 1
(locking the account), then dispute tx 2 on the locked account — it succeeds. -/
theorem locked_account_dispute_succeeds_witness :
    lookupKey ((Engine.new.process_transactions
        [mkDeposit 1 1 100, mkDeposit 1 2 40, mkDispute 1 1,
         mkChargeback 1 1]).apply_transaction (mkDispute 1 2)).accounts 1 =
      some { client_id := 0, total := 40, held := 0 + 40, is_locked := true } ∧
    lookupKey ((Engine.new.process_transactions
        [mkDeposit 1 1 100, mkDeposit 1 2 40, mkDispute 1 1,
         mkChargeback 1 1]).apply_transaction (mkDispute 1 2)).transactions 2 =
      some { transaction := mkDeposit 1 2 40,
             dispute_state := DisputeState.Disputed } := by
  have h := locked_account_dispute_succeeds
    (Engine.new.process_transactions
      [mkDeposit 1 1 100, mkDeposit 1 2 40, mkDispute 1 1, mkChargeback 1 1])
    1 2 { client_id := 0, total := 40, held := 0, is_locked := true }
    { transaction := mkDeposit 1 2 40, dispute_state := DisputeState.None } 40
    (by norm_num [Engine.process_transactions, Engine.apply_transaction,
      Engine.handle_deposit, Engine.handle_dispute, Engine.handle_chargeback,
      Account.deposit, Account.dispute, Account.chargeback, Account.default,
      Account.new, Engine.new, mkDeposit, mkDispute, mkChargeback,
      lookupKey, insertKey] <;> decide)
    rfl
    (by norm_num [Engine.process_transactions, Engine.apply_transaction,
      Engine.handle_deposit, Engine.handle_dispute, Engine.handle_chargeback,
      Account.deposit, Account.dispute, Account.chargeback, Account.default,
      Account.new, Engine.new, mkDeposit, mkDispute, mkChargeback,
      lookupKey, insertKey] <;> decide)
    rfl rfl
  exact h

end ToyTx

namespace ToyTx

/-- C1 (amended): a dispute-family transaction whose `tx_id` maps to a stored
record in a permitting state takes the *amount* from the stored record, but the
account it mutates is the one stored under the *incoming* transaction's
`client` field; the account of every other client — in particular that of the
stored `client_id` of the record when it differs — is untouched. -/
theorem dispute_family_mutates_incoming_client (e : Engine) (client : ClientId)
    (tx : TxId) (a : Account) (rec : TransactionRecord) (amt : ℚ)
    (ha : lookupKey e.accounts client = some a)
    (hrec : lookupKey e.transactions tx = some rec)
    (hamt : rec.transaction.amount = some amt) :
    (rec.dispute_state = DisputeState.None →
      lookupKey (e.apply_transaction (mkDispute client tx)).accounts client =
        some { a with held := a.held + amt } ∧
      ∀ c', c' ≠ client →
        lookupKey (e.apply_transaction (mkDispute client tx)).accounts c' =
          lookupKey e.accounts c') ∧
    (rec.dispute_state = DisputeState.Disputed →
      (lookupKey (e.apply_transaction (mkResolve client tx)).accounts client =
          some { a with held := a.held - amt } ∧
        ∀ c', c' ≠ client →
          lookupKey (e.apply_transaction (mkResolve client tx)).accounts c' =
            lookupKey e.accounts c') ∧
      (lookupKey (e.apply_transaction (mkChargeback client tx)).accounts client =
          some { a with held := a.held - amt, total := a.total - amt,
                        is_locked := true } ∧
        ∀ c', c' ≠ client →
          lookupKey (e.apply_transaction (mkChargeback client tx)).accounts c' =
            lookupKey e.accounts c')) := by
  refine ⟨fun hst => ⟨?_, fun c' hc' => ?_⟩,
    fun hst => ⟨⟨?_, fun c' hc' => ?_⟩, ?_, fun c' hc' => ?_⟩⟩
  · simp [Engine.apply_transaction, mkDispute, Engine.handle_dispute,
      hrec, hst, ha, hamt, Account.dispute, lookupKey_insertKey]
  · have hcc : ¬ client = c' := fun h => hc' h.symm
    simp [Engine.apply_transaction, mkDispute, Engine.handle_dispute,
      hrec, hst, ha, hamt, Account.dispute, lookupKey_insertKey, hcc]
  · simp [Engine.apply_transaction, mkResolve, Engine.handle_resolve,
      hrec, hst, ha, hamt, Account.resolve, lookupKey_insertKey]
  · have hcc : ¬ client = c' := fun h => hc' h.symm
    simp [Engine.apply_transaction, mkResolve, Engine.handle_resolve,
      hrec, hst, ha, hamt, Account.resolve, lookupKey_insertKey, hcc]
  · simp [Engine.apply_transaction, mkChargeback, Engine.handle_chargeback,
      hrec, hst, ha, hamt, Account.chargeback, lookupKey_insertKey]
  · have hcc : ¬ client = c' := fun h => hc' h.symm
    simp [Engine.apply_transaction, mkChargeback, Engine.handle_chargeback,
      hrec, hst, ha, hamt, Account.chargeback, lookupKey_insertKey, hcc]

/-- C1 counterexample: with tx 1 recorded as the deposit of client 1 (state `None`,
a permitting state), the dispute `(client = 2, tx = 1)` mutates client 2's
account — held grows by the recorded amount 100 — while the account of
client 1, the stored `client_id` of the record, is untouched.  The incoming `client` field
therefore does determine which account is mutated, contrary to the claim. -/
theorem dispute_family_mutates_incoming_client_counterexample :
    lookupKey (Engine.new.process_transactions
        [mkDeposit 1 1 100, mkDeposit 2 2 50]).transactions 1 =
      some { transaction := mkDeposit 1 1 100,
             dispute_state := DisputeState.None } ∧
    lookupKey ((Engine.new.process_transactions
        [mkDeposit 1 1 100, mkDeposit 2 2 50]).apply_transaction
        (mkDispute 2 1)).accounts 2 =
      some { client_id := 0, total := 50, held := 100, is_locked := false } ∧
    lookupKey ((Engine.new.process_transactions
        [mkDeposit 1 1 100, mkDeposit 2 2 50]).apply_transaction
        (mkDispute 2 1)).accounts 1 =
      some { client_id := 0, total := 100, held := 0, is_locked := false } := by
  norm_num [Engine.process_transactions, Engine.apply_transaction,
    Engine.handle_deposit, Engine.handle_dispute, Account.deposit,
    Account.dispute, Account.default, Account.new, Engine.new, mkDeposit,
    mkDispute, lookupKey, insertKey] <;> decide

end ToyTx

namespace ToyTx

/-- Witness for the amended C1: disputing tx 1 (recorded for client 1) with
incoming client 2 mutates the account of client 2 and leaves client 1 alone. -/
theorem dispute_family_mutates_incoming_client_witness :
    lookupKey ((Engine.new.process_transactions
        [mkDeposit 1 1 100, mkDeposit 2 2 50]).apply_transaction
        (mkDispute 2 1)).accounts 2 =
      some { client_id := 0, total := 50, held := 0 + 100, is_locked := false } ∧
    lookupKey ((Engine.new.process_transactions
        [mkDeposit 1 1 100, mkDeposit 2 2 50]).apply_transaction
        (mkDispute 2 1)).accounts 1 =
      lookupKey (Engine.new.process_transactions
        [mkDeposit 1 1 100, mkDeposit 2 2 50]).accounts 1 := by
  have h := (dispute_family_mutates_incoming_client
    (Engine.new.process_transactions [mkDeposit 1 1 100, mkDeposit 2 2 50])
    2 1 { client_id := 0, total := 50, held := 0, is_locked := false }
    { transaction := mkDeposit 1 1 100, dispute_state := DisputeState.None } 100
    (by norm_num [Engine.process_transactions, Engine.apply_transaction,
      Engine.handle_deposit, Account.deposit, Account.default, Account.new,
      Engine.new, mkDeposit, lookupKey, insertKey] <;> decide)
    (by norm_num [Engine.process_transactions, Engine.apply_transaction,
      Engine.handle_deposit, Account.deposit, Account.default, Account.new,
      Engine.new, mkDeposit, lookupKey, insertKey] <;> decide)
    rfl).1 rfl
  exact ⟨h.1, h.2 1 (by decide)⟩

/-- C4: the states `Resolved` and `ChargedBack` are terminal — a record in either state
turns every further dispute-family transaction on its `tx_id` into a complete
no-op; a Dispute against a `Disputed` record is likewise a no-op; and a
dispute-family transaction yields a `Disputed` record only from a record that
was `None` (the unique entry) or already `Disputed`. -/
theorem terminal_dispute_states_noop (e : Engine) (client : ClientId)
    (tx : TxId) (rec : TransactionRecord) (ty : TransactionType)
    (amt : Option ℚ)
    (hrec : lookupKey e.transactions tx = some rec)
    (hty : ty = TransactionType.Dispute ∨ ty = TransactionType.Resolve ∨
      ty = TransactionType.Chargeback) :
    ((rec.dispute_state = DisputeState.Resolved ∨
        rec.dispute_state = DisputeState.ChargedBack) →
      e.apply_transaction
        { type := ty, client := client, tx := tx, amount := amt } = e) ∧
    (rec.dispute_state = DisputeState.Disputed →
      e.apply_transaction
        { type := TransactionType.Dispute, client := client, tx := tx,
          amount := amt } = e) ∧
    (∀ rec', lookupKey (e.apply_transaction
          { type := ty, client := client, tx := tx, amount := amt }).transactions
        tx = some rec' →
      rec'.dispute_state = DisputeState.Disputed →
      rec.dispute_state = DisputeState.None ∨
        rec.dispute_state = DisputeState.Disputed) := by
  have hnoop : (rec.dispute_state = DisputeState.Resolved ∨
      rec.dispute_state = DisputeState.ChargedBack) →
      e.apply_transaction
        { type := ty, client := client, tx := tx, amount := amt } = e := by
    intro hst
    have h1 : ¬ rec.dispute_state = DisputeState.None := by
      rcases hst with h | h <;> simp [h]
    have h2 : ¬ rec.dispute_state = DisputeState.Disputed := by
      rcases hst with h | h <;> simp [h]
    rcases hty with h | h | h <;>
      simp [h, Engine.apply_transaction, Engine.handle_dispute,
        Engine.handle_resolve, Engine.handle_chargeback, hrec, h1, h2]
  refine ⟨hnoop, fun hst => ?_, fun rec' hlk hst' => ?_⟩
  · have h1 : ¬ rec.dispute_state = DisputeState.None := by simp [hst]
    simp [Engine.apply_transaction, Engine.handle_dispute, hrec, h1]
  · cases hstate : rec.dispute_state with
    | None => exact Or.inl rfl
    | Disputed => exact Or.inr rfl
    | Resolved =>
        rw [hnoop (Or.inl hstate), hrec] at hlk
        injection hlk with h
        rw [← h, hstate] at hst'
        simp at hst'
    | ChargedBack =>
        rw [hnoop (Or.inr hstate), hrec] at hlk
        injection hlk with h
        rw [← h, hstate] at hst'
        simp at hst'

/-- Witness for C4: after deposit–dispute–resolve, tx 1 is `Resolved`; a new
Dispute against it leaves the engine exactly unchanged. -/
theorem terminal_dispute_states_noop_witness :
    (Engine.new.process_transactions
        [mkDeposit 1 1 100, mkDispute 1 1, mkResolve 1 1]).apply_transaction
      { type := TransactionType.Dispute, client := 1, tx := 1, amount := none } =
    Engine.new.process_transactions
      [mkDeposit 1 1 100, mkDispute 1 1, mkResolve 1 1] :=
  (terminal_dispute_states_noop
    (Engine.new.process_transactions
      [mkDeposit 1 1 100, mkDispute 1 1, mkResolve 1 1])
    1 1
    { transaction := mkDeposit 1 1 100, dispute_state := DisputeState.Resolved }
    TransactionType.Dispute none
    (by norm_num [Engine.process_transactions, Engine.apply_transaction,
      Engine.handle_deposit, Engine.handle_dispute, Engine.handle_resolve,
      Account.deposit, Account.dispute, Account.resolve, Account.default,
      Account.new, Engine.new, mkDeposit, mkDispute, mkResolve,
      lookupKey, insertKey] <;> decide)
    (Or.inl rfl)).1 (Or.inl rfl)

end ToyTx

namespace ToyTx

/-- C8: every routing rejection is a non-fatal no-op leaving the entire engine
state unchanged (all accounts, all records, no account created): a withdrawal
for an unknown client, a dispute-family transaction with an unknown `tx_id`,
an invalid dispute-state transition, and a Deposit/Withdrawal with a missing
amount all return the engine exactly as it was. -/
theorem routing_rejections_noop (e : Engine) (client : ClientId) (tx : TxId) :
    (∀ amt : ℚ, lookupKey e.accounts client = none →
      e.apply_transaction (mkWithdrawal client tx amt) = e) ∧
    (∀ ty amt, (ty = TransactionType.Dispute ∨ ty = TransactionType.Resolve ∨
        ty = TransactionType.Chargeback) →
      lookupKey e.transactions tx = none →
      e.apply_transaction
        { type := ty, client := client, tx := tx, amount := amt } = e) ∧
    (∀ rec amt, lookupKey e.transactions tx = some rec →
      rec.dispute_state ≠ DisputeState.None →
      e.apply_transaction
        { type := TransactionType.Dispute, client := client, tx := tx,
          amount := amt } = e) ∧
    (∀ rec ty amt, lookupKey e.transactions tx = some rec →
      rec.dispute_state ≠ DisputeState.Disputed →
      (ty = TransactionType.Resolve ∨ ty = TransactionType.Chargeback) →
      e.apply_transaction
        { type := ty, client := client, tx := tx, amount := amt } = e) ∧
    (∀ ty, (ty = TransactionType.Deposit ∨ ty = TransactionType.Withdrawal) →
      e.apply_transaction
        { type := ty, client := client, tx := tx, amount := none } = e) := by
  refine ⟨fun amt h => ?_, fun ty amt hty h => ?_, fun rec amt h hst => ?_,
    fun rec ty amt h hst hty => ?_, fun ty hty => ?_⟩
  · simp [Engine.apply_transaction, mkWithdrawal, Engine.handle_withdrawal, h]
  · rcases hty with hty | hty | hty <;>
      simp [hty, Engine.apply_transaction, Engine.handle_dispute,
        Engine.handle_resolve, Engine.handle_chargeback, h]
  · simp [Engine.apply_transaction, Engine.handle_dispute, h, hst]
  · rcases hty with hty | hty <;>
      simp [hty, Engine.apply_transaction, Engine.handle_resolve,
        Engine.handle_chargeback, h, hst]
  · rcases hty with hty | hty <;> simp [hty, Engine.apply_transaction]

/-- Witness for C8: on a one-deposit engine, a withdrawal for unknown client 7,
a dispute of unknown tx 9, a resolve of the undisputed tx 1, and an
amount-less deposit are each exact no-ops. -/
theorem routing_rejections_noop_witness :
    (Engine.new.process_transactions [mkDeposit 1 1 100]).apply_transaction
        (mkWithdrawal 7 3 5) =
      Engine.new.process_transactions [mkDeposit 1 1 100] ∧
    (Engine.new.process_transactions [mkDeposit 1 1 100]).apply_transaction
        { type := TransactionType.Dispute, client := 1, tx := 9,
          amount := none } =
      Engine.new.process_transactions [mkDeposit 1 1 100] ∧
    (Engine.new.process_transactions [mkDeposit 1 1 100]).apply_transaction
        { type := TransactionType.Resolve, client := 1, tx := 1,
          amount := none } =
      Engine.new.process_transactions [mkDeposit 1 1 100] ∧
    (Engine.new.process_transactions [mkDeposit 1 1 100]).apply_transaction
        { type := TransactionType.Deposit, client := 1, tx := 2,
          amount := none } =
      Engine.new.process_transactions [mkDeposit 1 1 100] := by
  refine ⟨(routing_rejections_noop _ 7 3).1 5 ?_,
    (routing_rejections_noop _ 1 9).2.1 TransactionType.Dispute none
      (Or.inl rfl) ?_,
    (routing_rejections_noop _ 1 1).2.2.2.1
      { transaction := mkDeposit 1 1 100, dispute_state := DisputeState.None }
      TransactionType.Resolve none ?_ (by decide) (Or.inl rfl),
    (routing_rejections_noop _ 1 2).2.2.2.2 TransactionType.Deposit
      (Or.inl rfl)⟩ <;>
  · norm_num [Engine.process_transactions, Engine.apply_transaction,
      Engine.handle_deposit, Account.deposit, Account.default, Account.new,
      Engine.new, mkDeposit, lookupKey, insertKey] <;> decide

end ToyTx

namespace ToyTx

/-- C7: a `TransactionRecord` is created exactly for the Deposit/Withdrawal
transactions whose account operation succeeds — a failing deposit or withdraw
inserts no record (the transactions map is left as it was), a succeeding one
inserts a fresh record under its `tx_id`, and a dispute-family transaction
referencing a `tx_id` with no record changes nothing. -/
theorem record_created_iff_op_succeeds (e : Engine) (client : ClientId)
    (tx : TxId) (amt : ℚ) :
    (∀ err, (((lookupKey e.accounts client).getD Account.default).deposit
        tx amt).2 = Except.error err →
      (e.apply_transaction (mkDeposit client tx amt)).transactions =
        e.transactions) ∧
    (∀ a err, lookupKey e.accounts client = some a →
      (a.withdraw tx amt).2 = Except.error err →
      (e.apply_transaction (mkWithdrawal client tx amt)).transactions =
        e.transactions) ∧
    ((((lookupKey e.accounts client).getD Account.default).deposit
        tx amt).2 = Except.ok () →
      lookupKey (e.apply_transaction (mkDeposit client tx amt)).transactions
          tx =
        some { transaction := mkDeposit client tx amt,
               dispute_state := DisputeState.None }) ∧
    (∀ a, lookupKey e.accounts client = some a →
      (a.withdraw tx amt).2 = Except.ok () →
      lookupKey (e.apply_transaction (mkWithdrawal client tx amt)).transactions
          tx =
        some { transaction := mkWithdrawal client tx amt,
               dispute_state := DisputeState.None }) ∧
    (∀ ty amt', (ty = TransactionType.Dispute ∨
        ty = TransactionType.Resolve ∨ ty = TransactionType.Chargeback) →
      lookupKey e.transactions tx = none →
      e.apply_transaction
        { type := ty, client := client, tx := tx, amount := amt' } = e) := by
  refine ⟨fun err herr => ?_, fun a err ha herr => ?_, fun hok => ?_,
    fun a ha hok => ?_, fun ty amt' hty h => ?_⟩
  · by_cases hlk : ((lookupKey e.accounts client).getD Account.default).is_locked
    · simp [Engine.apply_transaction, mkDeposit, Engine.handle_deposit,
        Account.deposit, hlk]
    · simp [Account.deposit, hlk] at herr
  · by_cases hlk : a.is_locked
    · simp [Engine.apply_transaction, mkWithdrawal, Engine.handle_withdrawal,
        ha, Account.withdraw, hlk]
    · by_cases hav : a.get_available < amt
      · simp [Engine.apply_transaction, mkWithdrawal, Engine.handle_withdrawal,
          ha, Account.withdraw, hlk, hav]
      · simp [Account.withdraw, hlk, hav] at herr
  · by_cases hlk : ((lookupKey e.accounts client).getD Account.default).is_locked
    · simp [Account.deposit, hlk] at hok
    · simp [Engine.apply_transaction, mkDeposit, Engine.handle_deposit,
        Account.deposit, hlk, lookupKey_insertKey]
  · by_cases hlk : a.is_locked
    · simp [Account.withdraw, hlk] at hok
    · by_cases hav : a.get_available < amt
      · simp [Account.withdraw, hlk, hav] at hok
      · simp [Engine.apply_transaction, mkWithdrawal, Engine.handle_withdrawal,
          ha, Account.withdraw, hlk, hav, lookupKey_insertKey]
  · rcases hty with hty | hty | hty <;>
      simp [hty, Engine.apply_transaction, Engine.handle_dispute,
        Engine.handle_resolve, Engine.handle_chargeback, h]

/-- Witness for C7: a deposit on a locked account inserts no record; the fresh
deposit to client 1 inserted a record; disputing the unknown tx 9 is a no-op. -/
theorem record_created_iff_op_succeeds_witness :
    ((Engine.new.process_transactions
        [mkDeposit 1 1 100, mkDispute 1 1, mkChargeback 1 1]).apply_transaction
      (mkDeposit 1 5 10)).transactions =
      (Engine.new.process_transactions
        [mkDeposit 1 1 100, mkDispute 1 1, mkChargeback 1 1]).transactions ∧
    lookupKey ((Engine.new.apply_transaction (mkDeposit 1 1 100)).transactions)
        1 =
      some { transaction := mkDeposit 1 1 100,
             dispute_state := DisputeState.None } ∧
    (Engine.new.process_transactions [mkDeposit 1 1 100]).apply_transaction
        { type := TransactionType.Dispute, client := 1, tx := 9,
          amount := none } =
      Engine.new.process_transactions [mkDeposit 1 1 100] := by
  refine ⟨(record_created_iff_op_succeeds
      (Engine.new.process_transactions
        [mkDeposit 1 1 100, mkDispute 1 1, mkChargeback 1 1]) 1 5 10).1
      (AccountError.AccountLocked 0) ?_,
    (record_created_iff_op_succeeds Engine.new 1 1 100).2.2.1 ?_,
    (record_created_iff_op_succeeds
      (Engine.new.process_transactions [mkDeposit 1 1 100]) 1 9 0).2.2.2.2
      TransactionType.Dispute none (Or.inl rfl) ?_⟩ <;>
  · norm_num [Engine.process_transactions, Engine.apply_transaction,
      Engine.handle_deposit, Engine.handle_dispute, Engine.handle_chargeback,
      Account.deposit, Account.dispute, Account.chargeback, Account.default,
      Account.new, Engine.new, mkDeposit, mkDispute, mkChargeback,
      lookupKey, insertKey] <;> decide

end ToyTx

namespace ToyTx

/-- C9: uniqueness of `tx_id` is never enforced — whenever a Deposit or a
Withdrawal succeeds with a `tx_id` that already has a record (in any dispute
state), the engine overwrites that record with a fresh one in state `None`,
and the `tx_id` is then disputable again: a following Dispute raises `held`
by the new amount and moves the fresh record to `Disputed`. -/
theorem tx_id_overwrite_redisputable (e : Engine) (client : ClientId)
    (tx : TxId) (amt : ℚ) (rec : TransactionRecord)
    (hrec : lookupKey e.transactions tx = some rec) :
    ((((lookupKey e.accounts client).getD Account.default).deposit
        tx amt).2 = Except.ok () →
      lookupKey (e.apply_transaction (mkDeposit client tx amt)).transactions
          tx =
        some { transaction := mkDeposit client tx amt,
               dispute_state := DisputeState.None } ∧
      lookupKey ((e.apply_transaction
          (mkDeposit client tx amt)).apply_transaction
          (mkDispute client tx)).accounts client =
        some { (lookupKey e.accounts client).getD Account.default with
               total := ((lookupKey e.accounts client).getD
                 Account.default).total + amt,
               held := ((lookupKey e.accounts client).getD
                 Account.default).held + amt } ∧
      lookupKey ((e.apply_transaction
          (mkDeposit client tx amt)).apply_transaction
          (mkDispute client tx)).transactions tx =
        some { transaction := mkDeposit client tx amt,
               dispute_state := DisputeState.Disputed }) ∧
    (∀ a, lookupKey e.accounts client = some a →
      (a.withdraw tx amt).2 = Except.ok () →
      lookupKey (e.apply_transaction (mkWithdrawal client tx amt)).transactions
          tx =
        some { transaction := mkWithdrawal client tx amt,
               dispute_state := DisputeState.None } ∧
      lookupKey ((e.apply_transaction
          (mkWithdrawal client tx amt)).apply_transaction
          (mkDispute client tx)).accounts client =
        some { a with total := a.total - amt, held := a.held + amt } ∧
      lookupKey ((e.apply_transaction
          (mkWithdrawal client tx amt)).apply_transaction
          (mkDispute client tx)).transactions tx =
        some { transaction := mkWithdrawal client tx amt,
               dispute_state := DisputeState.Disputed }) := by
  constructor
  · intro hok
    by_cases hlk :
        ((lookupKey e.accounts client).getD Account.default).is_locked
    · simp [Account.deposit, hlk] at hok
    · refine ⟨?_, ?_, ?_⟩ <;>
        simp [Engine.apply_transaction, mkDeposit, mkDispute,
          Engine.handle_deposit, Engine.handle_dispute, Account.deposit,
          Account.dispute, hlk, lookupKey_insertKey]
  · intro a ha hok
    by_cases hlk : a.is_locked
    · simp [Account.withdraw, hlk] at hok
    · by_cases hav : a.get_available < amt
      · simp [Account.withdraw, hlk, hav] at hok
      · refine ⟨?_, ?_, ?_⟩ <;>
          simp [Engine.apply_transaction, mkWithdrawal, mkDispute,
            Engine.handle_withdrawal, Engine.handle_dispute, ha,
            Account.withdraw, Account.dispute, hlk, hav, lookupKey_insertKey]

/-- Witness for C9: tx 1 is deposited, disputed and resolved (a terminal
state); a second deposit reusing tx 1 resets the record to `None` and tx 1 is
disputable again, and likewise a withdrawal reusing tx 1 overwrites the record
and tx 1 is disputable again. -/
theorem tx_id_overwrite_redisputable_witness :
    (lookupKey ((Engine.new.process_transactions
        [mkDeposit 1 1 100, mkDispute 1 1, mkResolve 1 1]).apply_transaction
        (mkDeposit 1 1 30)).transactions 1 =
      some { transaction := mkDeposit 1 1 30,
             dispute_state := DisputeState.None } ∧
    lookupKey (((Engine.new.process_transactions
        [mkDeposit 1 1 100, mkDispute 1 1, mkResolve 1 1]).apply_transaction
        (mkDeposit 1 1 30)).apply_transaction (mkDispute 1 1)).accounts 1 =
      some { (lookupKey (Engine.new.process_transactions
          [mkDeposit 1 1 100, mkDispute 1 1, mkResolve 1 1]).accounts 1).getD
            Account.default with
        total := ((lookupKey (Engine.new.process_transactions
          [mkDeposit 1 1 100, mkDispute 1 1, mkResolve 1 1]).accounts 1).getD
            Account.default).total + 30,
        held := ((lookupKey (Engine.new.process_transactions
          [mkDeposit 1 1 100, mkDispute 1 1, mkResolve 1 1]).accounts 1).getD
            Account.default).held + 30 } ∧
    lookupKey (((Engine.new.process_transactions
        [mkDeposit 1 1 100, mkDispute 1 1, mkResolve 1 1]).apply_transaction
        (mkDeposit 1 1 30)).apply_transaction (mkDispute 1 1)).transactions 1 =
      some { transaction := mkDeposit 1 1 30,
             dispute_state := DisputeState.Disputed }) ∧
    (lookupKey ((Engine.new.process_transactions
        [mkDeposit 1 1 100, mkDispute 1 1, mkResolve 1 1]).apply_transaction
        (mkWithdrawal 1 1 30)).transactions 1 =
      some { transaction := mkWithdrawal 1 1 30,
             dispute_state := DisputeState.None } ∧
    lookupKey (((Engine.new.process_transactions
        [mkDeposit 1 1 100, mkDispute 1 1, mkResolve 1 1]).apply_transaction
        (mkWithdrawal 1 1 30)).apply_transaction (mkDispute 1 1)).accounts 1 =
      some { client_id := 0, total := 100 - 30, held := 0 + 30,
             is_locked := false } ∧
    lookupKey (((Engine.new.process_transactions
        [mkDeposit 1 1 100, mkDispute 1 1, mkResolve 1 1]).apply_transaction
        (mkWithdrawal 1 1 30)).apply_transaction (mkDispute 1 1)).transactions
        1 =
      some { transaction := mkWithdrawal 1 1 30,
             dispute_state := DisputeState.Disputed }) := by
  have h := tx_id_overwrite_redisputable
    (Engine.new.process_transactions
      [mkDeposit 1 1 100, mkDispute 1 1, mkResolve 1 1])
    1 1 30
    { transaction := mkDeposit 1 1 100, dispute_state := DisputeState.Resolved }
    (by norm_num [Engine.process_transactions, Engine.apply_transaction,
      Engine.handle_deposit, Engine.handle_dispute, Engine.handle_resolve,
      Account.deposit, Account.dispute, Account.resolve, Account.default,
      Account.new, Engine.new, mkDeposit, mkDispute, mkResolve,
      lookupKey, insertKey] <;> decide)
  exact ⟨h.1 (by norm_num [Engine.process_transactions,
      Engine.apply_transaction, Engine.handle_deposit, Engine.handle_dispute,
      Engine.handle_resolve, Account.deposit, Account.dispute,
      Account.resolve, Account.default, Account.new, Engine.new, mkDeposit,
      mkDispute, mkResolve, lookupKey, insertKey] <;> decide),
    h.2 { client_id := 0, total := 100, held := 0, is_locked := false }
      (by norm_num [Engine.process_transactions, Engine.apply_transaction,
        Engine.handle_deposit, Engine.handle_dispute, Engine.handle_resolve,
        Account.deposit, Account.dispute, Account.resolve, Account.default,
        Account.new, Engine.new, mkDeposit, mkDispute, mkResolve,
        lookupKey, insertKey] <;> decide)
      (by norm_num [Account.withdraw, Account.get_available])⟩

end ToyTx

namespace ToyTx

/-- After an overwrite at `client`, a locked account at `c` is still present
and locked, provided the written value is locked whenever it lands on `c`. -/
theorem lookup_insert_locked (m : List (Nat × Account)) (client c : Nat)
    (a v : Account) (hc : lookupKey m c = some a) (hl : a.is_locked = true)
    (hv : client = c → v.is_locked = true) :
    ∃ a', lookupKey (insertKey m client v) c = some a' ∧
      a'.is_locked = true := by
  rw [lookupKey_insertKey]
  by_cases h : client = c
  · exact ⟨v, by simp [h], hv h⟩
  · exact ⟨a, by simp [h, hc], hl⟩

/-- The handler `handle_deposit` never unlocks an account. -/
theorem handle_deposit_locked (e : Engine) (client : ClientId) (tx : TxId)
    (amt : ℚ) (c : ClientId) (a : Account)
    (hc : lookupKey e.accounts c = some a) (hl : a.is_locked = true) :
    ∃ a', lookupKey (e.handle_deposit client tx amt).accounts c = some a' ∧
      a'.is_locked = true := by
  rcases hdep : ((lookupKey e.accounts client).getD Account.default).deposit
      tx amt with ⟨a', r⟩
  have hflag : a'.is_locked =
      ((lookupKey e.accounts client).getD Account.default).is_locked := by
    have h := Account.deposit_fst_is_locked
      ((lookupKey e.accounts client).getD Account.default) tx amt
    rw [hdep] at h
    exact h
  have hv : client = c → a'.is_locked = true := by
    intro h
    rw [hflag, h, hc]
    exact hl
  cases r
  · simp only [Engine.handle_deposit, hdep]
    exact lookup_insert_locked e.accounts client c a a' hc hl hv
  · simp only [Engine.handle_deposit, hdep]
    exact lookup_insert_locked e.accounts client c a a' hc hl hv

/-- The handler `handle_withdrawal` never unlocks an account. -/
theorem handle_withdrawal_locked (e : Engine) (client : ClientId) (tx : TxId)
    (amt : ℚ) (c : ClientId) (a : Account)
    (hc : lookupKey e.accounts c = some a) (hl : a.is_locked = true) :
    ∃ a', lookupKey (e.handle_withdrawal client tx amt).accounts c = some a' ∧
      a'.is_locked = true := by
  rcases hacc : lookupKey e.accounts client with _ | account
  · simp only [Engine.handle_withdrawal, hacc]
    exact ⟨a, hc, hl⟩
  rcases hw : account.withdraw tx amt with ⟨a', r⟩
  have hflag : a'.is_locked = account.is_locked := by
    have h := Account.withdraw_fst_is_locked account tx amt
    rw [hw] at h
    exact h
  have hv : client = c → a'.is_locked = true := by
    intro h
    rw [h] at hacc
    rw [hc] at hacc
    injection hacc with hacc
    rw [hflag, ← hacc]
    exact hl
  cases r
  · simp only [Engine.handle_withdrawal, hacc, hw]
    exact lookup_insert_locked e.accounts client c a a' hc hl hv
  · simp only [Engine.handle_withdrawal, hacc, hw]
    exact lookup_insert_locked e.accounts client c a a' hc hl hv

/-- The handler `handle_dispute` never unlocks an account. -/
theorem handle_dispute_locked (e : Engine) (client : ClientId) (tx : TxId)
    (c : ClientId) (a : Account)
    (hc : lookupKey e.accounts c = some a) (hl : a.is_locked = true) :
    ∃ a', lookupKey (e.handle_dispute client tx).accounts c = some a' ∧
      a'.is_locked = true := by
  rcases htx : lookupKey e.transactions tx with _ | record
  · simp only [Engine.handle_dispute, htx]
    exact ⟨a, hc, hl⟩
  by_cases hst : record.dispute_state = DisputeState.None
  case neg =>
    simp [Engine.handle_dispute, htx, hst]
    exact ⟨a, hc, hl⟩
  rcases hacc : lookupKey e.accounts client with _ | account
  · simp [Engine.handle_dispute, htx, hst, hacc]
    exact ⟨a, hc, hl⟩
  rcases hamt : record.transaction.amount with _ | amount
  · simp [Engine.handle_dispute, htx, hst, hacc, hamt]
    exact ⟨a, hc, hl⟩
  rcases hd : account.dispute amount with ⟨a', r⟩
  have hv : client = c → a'.is_locked = true := by
    intro h
    rw [h] at hacc
    rw [hc] at hacc
    injection hacc with hacc
    have hl' : account.is_locked = true := by
      rw [hacc] at hl
      exact hl
    have hthis : ((account.dispute amount).1).is_locked = true := by
      simp [Account.dispute, hl']
    rw [hd] at hthis
    exact hthis
  cases r
  · simp [Engine.handle_dispute, htx, hst, hacc, hamt, hd]
    exact lookup_insert_locked e.accounts client c a a' hc hl hv
  · simp [Engine.handle_dispute, htx, hst, hacc, hamt, hd]
    exact lookup_insert_locked e.accounts client c a a' hc hl hv

/-- The handler `handle_resolve` never unlocks an account. -/
theorem handle_resolve_locked (e : Engine) (client : ClientId) (tx : TxId)
    (c : ClientId) (a : Account)
    (hc : lookupKey e.accounts c = some a) (hl : a.is_locked = true) :
    ∃ a', lookupKey (e.handle_resolve client tx).accounts c = some a' ∧
      a'.is_locked = true := by
  rcases htx : lookupKey e.transactions tx with _ | record
  · simp only [Engine.handle_resolve, htx]
    exact ⟨a, hc, hl⟩
  by_cases hst : record.dispute_state = DisputeState.Disputed
  case neg =>
    simp [Engine.handle_resolve, htx, hst]
    exact ⟨a, hc, hl⟩
  rcases hacc : lookupKey e.accounts client with _ | account
  · simp [Engine.handle_resolve, htx, hst, hacc]
    exact ⟨a, hc, hl⟩
  rcases hamt : record.transaction.amount with _ | amount
  · simp [Engine.handle_resolve, htx, hst, hacc, hamt]
    exact ⟨a, hc, hl⟩
  rcases hd : account.resolve amount with ⟨a', r⟩
  have hv : client = c → a'.is_locked = true := by
    intro h
    rw [h] at hacc
    rw [hc] at hacc
    injection hacc with hacc
    have hl' : account.is_locked = true := by
      rw [hacc] at hl
      exact hl
    have hthis : ((account.resolve amount).1).is_locked = true := by
      simp [Account.resolve, hl']
    rw [hd] at hthis
    exact hthis
  cases r
  · simp [Engine.handle_resolve, htx, hst, hacc, hamt, hd]
    exact lookup_insert_locked e.accounts client c a a' hc hl hv
  · simp [Engine.handle_resolve, htx, hst, hacc, hamt, hd]
    exact lookup_insert_locked e.accounts client c a a' hc hl hv

/-- The handler `handle_chargeback` never unlocks an account (it only ever locks). -/
theorem handle_chargeback_locked (e : Engine) (client : ClientId) (tx : TxId)
    (c : ClientId) (a : Account)
    (hc : lookupKey e.accounts c = some a) (hl : a.is_locked = true) :
    ∃ a', lookupKey (e.handle_chargeback client tx).accounts c = some a' ∧
      a'.is_locked = true := by
  rcases htx : lookupKey e.transactions tx with _ | record
  · simp only [Engine.handle_chargeback, htx]
    exact ⟨a, hc, hl⟩
  by_cases hst : record.dispute_state = DisputeState.Disputed
  case neg =>
    simp [Engine.handle_chargeback, htx, hst]
    exact ⟨a, hc, hl⟩
  rcases hacc : lookupKey e.accounts client with _ | account
  · simp [Engine.handle_chargeback, htx, hst, hacc]
    exact ⟨a, hc, hl⟩
  rcases hamt : record.transaction.amount with _ | amount
  · simp [Engine.handle_chargeback, htx, hst, hacc, hamt]
    exact ⟨a, hc, hl⟩
  rcases hd : account.chargeback amount with ⟨a', r⟩
  have hv : client = c → a'.is_locked = true := by
    intro h
    have hthis : ((account.chargeback amount).1).is_locked = true := by
      simp [Account.chargeback]
    rw [hd] at hthis
    exact hthis
  cases r
  · simp [Engine.handle_chargeback, htx, hst, hacc, hamt, hd]
    exact lookup_insert_locked e.accounts client c a a' hc hl hv
  · simp [Engine.handle_chargeback, htx, hst, hacc, hamt, hd]
    exact lookup_insert_locked e.accounts client c a a' hc hl hv

end ToyTx

namespace ToyTx

/-- C3: lock monotonicity — no engine operation ever takes `is_locked` from
true back to false (after any transaction a locked account is still present
and locked); deposit and withdraw on a locked account fail with `AccountLocked`
returning the account unchanged; and of the five account operations only
`chargeback` sets the flag (the other four preserve it exactly). -/
theorem lock_monotonicity (e : Engine) (t : Transaction) (c : ClientId)
    (a : Account) (tx : TxId) (amt : ℚ)
    (hc : lookupKey e.accounts c = some a) (hl : a.is_locked = true) :
    (∃ a', lookupKey (e.apply_transaction t).accounts c = some a' ∧
      a'.is_locked = true) ∧
    a.deposit tx amt =
      (a, Except.error (AccountError.AccountLocked a.client_id)) ∧
    a.withdraw tx amt =
      (a, Except.error (AccountError.AccountLocked a.client_id)) ∧
    (∀ b : Account,
      ((b.deposit tx amt).1).is_locked = b.is_locked ∧
      ((b.withdraw tx amt).1).is_locked = b.is_locked ∧
      ((b.dispute amt).1).is_locked = b.is_locked ∧
      ((b.resolve amt).1).is_locked = b.is_locked ∧
      ((b.chargeback amt).1).is_locked = true) := by
  refine ⟨?_, by simp [Account.deposit, hl], by simp [Account.withdraw, hl],
    fun b => ⟨Account.deposit_fst_is_locked b tx amt,
      Account.withdraw_fst_is_locked b tx amt,
      by simp [Account.dispute], by simp [Account.resolve],
      by simp [Account.chargeback]⟩⟩
  rcases t with ⟨ty, client, tx', amount⟩
  cases ty
  case Deposit =>
    rcases amount with _ | amount
    · exact ⟨a, by simpa [Engine.apply_transaction] using hc, hl⟩
    · simpa [Engine.apply_transaction] using
        handle_deposit_locked e client tx' amount c a hc hl
  case Withdrawal =>
    rcases amount with _ | amount
    · exact ⟨a, by simpa [Engine.apply_transaction] using hc, hl⟩
    · simpa [Engine.apply_transaction] using
        handle_withdrawal_locked e client tx' amount c a hc hl
  case Dispute =>
    simpa [Engine.apply_transaction] using
      handle_dispute_locked e client tx' c a hc hl
  case Resolve =>
    simpa [Engine.apply_transaction] using
      handle_resolve_locked e client tx' c a hc hl
  case Chargeback =>
    simpa [Engine.apply_transaction] using
      handle_chargeback_locked e client tx' c a hc hl

/-- Witness for C3: with client 1 locked by a chargeback, a further deposit
keeps it present and locked, and the locked account value rejects deposit and
withdraw with `AccountLocked`. -/
theorem lock_monotonicity_witness :
    (∃ a', lookupKey ((Engine.new.process_transactions
        [mkDeposit 1 1 1, mkDispute 1 1, mkChargeback 1 1]).apply_transaction
        (mkDeposit 1 4 1)).accounts 1 = some a' ∧ a'.is_locked = true) ∧
    ({ client_id := 0, total := 0, held := 0, is_locked := true } : Account).deposit
        4 1 =
      ({ client_id := 0, total := 0, held := 0, is_locked := true },
        Except.error (AccountError.AccountLocked 0)) ∧
    ({ client_id := 0, total := 0, held := 0, is_locked := true } : Account).withdraw
        4 1 =
      ({ client_id := 0, total := 0, held := 0, is_locked := true },
        Except.error (AccountError.AccountLocked 0)) ∧
    (∀ b : Account,
      ((b.deposit 4 1).1).is_locked = b.is_locked ∧
      ((b.withdraw 4 1).1).is_locked = b.is_locked ∧
      ((b.dispute 1).1).is_locked = b.is_locked ∧
      ((b.resolve 1).1).is_locked = b.is_locked ∧
      ((b.chargeback 1).1).is_locked = true) :=
  lock_monotonicity
    (Engine.new.process_transactions
      [mkDeposit 1 1 1, mkDispute 1 1, mkChargeback 1 1])
    (mkDeposit 1 4 1) 1
    { client_id := 0, total := 0, held := 0, is_locked := true } 4 1
    (by norm_num [Engine.process_transactions, Engine.apply_transaction,
      Engine.handle_deposit, Engine.handle_dispute, Engine.handle_chargeback,
      Account.deposit, Account.dispute, Account.chargeback, Account.default,
      Account.new, Engine.new, mkDeposit, mkDispute, mkChargeback,
      lookupKey, insertKey] <;> decide)
    rfl

end ToyTx
